import Mathlib

/-!
Verification development for the cwl-mount repository: a FUSE filesystem
that exposes AWS CloudWatch Logs as a read-only tree of per-minute text
files.  The definitions below are shallow embeddings of the Rust sources:

* `src/fuse/src/lib.rs` — the time-indexed virtual file tree
  (`create_file_tree_for_time_range`);
* `src/cwl-lib/src/lib.rs` — the cached, fanned-out log fetcher
  (`get_logs_to_display`, `is_cacheable`, the actor's `handle_message`
  dispatch) and the rendering of fetched events;
* `src/cli/src/main.rs` — the FUSE callbacks `HelloFS::open` and
  `HelloFS::read`.

Instants are modelled as `Int` nanoseconds since the Unix epoch (chrono
`DateTime<Utc>` is a point on the UTC timeline; chrono's UTC has no leap
seconds, so every day is 86400 seconds).  Machine integers are modelled as
`Nat`/`Int`; the one place a fixed-width cast matters (`as u32` in
`HelloFS::read`) is modelled by an explicit `% 4294967296`.
-/

/-! ## Time model (chrono `Utc.ymd(..).and_hms(..)`, embedded as nanoseconds) -/

/-- Leap-year test of the proleptic Gregorian calendar used by chrono. -/
def is_leap_year (y : Int) : Bool :=
  y % 4 == 0 && (y % 100 != 0 || y % 400 == 0)

/-- Number of days in month `m` (1–12) of year `y`; `0` for an invalid month
index.  `Utc.ymd_opt(y, m, d)` returns a single valid date exactly when
`1 ≤ d ≤ days_in_month y m`. -/
def days_in_month (y : Int) (m : Nat) : Nat :=
  match m with
  | 1 => 31
  | 2 => if is_leap_year y then 29 else 28
  | 3 => 31
  | 4 => 30
  | 5 => 31
  | 6 => 30
  | 7 => 31
  | 8 => 31
  | 9 => 30
  | 10 => 31
  | 11 => 30
  | 12 => 31
  | _ => 0

/-- Day number of the civil date `(y, m, d)` counted from 1970-01-01
(Howard Hinnant's `days_from_civil`, the standard proleptic-Gregorian
conversion chrono's date arithmetic agrees with). -/
def days_from_civil (y : Int) (m d : Nat) : Int :=
  let y' : Int := if m ≤ 2 then y - 1 else y
  let era : Int := (if 0 ≤ y' then y' else y' - 399) / 400
  let yoe : Int := y' - era * 400
  let mp : Int := ((m : Int) + 9) % 12
  let doy : Int := (153 * mp + 2) / 5 + (d : Int) - 1
  let doe : Int := yoe * 365 + yoe / 4 - yoe / 100 + doy
  era * 146097 + doe - 719468

/-- Nanoseconds since the epoch of `Utc.ymd(y, m, d).and_hms(h, mi, s)`. -/
def and_hms_nanos (y : Int) (m d h mi s : Nat) : Int :=
  (days_from_civil y m d * 86400 + (h : Int) * 3600 + (mi : Int) * 60 + (s : Int))
    * 1000000000

/-! ## The virtual file tree (`src/fuse/src/lib.rs`) -/

/-- Time bounds carried by a minute file: `start_time`/`end_time` in
nanoseconds since the epoch (`fuse::TimeBounds`). -/
structure TimeBounds where
  start_time : Int
  end_time : Int
deriving DecidableEq, Repr

/-- Duration `Duration::minutes(1) - Duration::nanoseconds(1)` from
`create_file_tree_for_time_range`, in nanoseconds. -/
def just_under_one_minute : Int := 60000000000 - 1

/-- Time bounds of the minute file `HH-MM` of day `(y, m, d)`: start is
`date.and_hms(hour, minute, 0)`, end is start plus `just_under_one_minute`. -/
def minute_file_bounds (y : Int) (m d h mi : Nat) : TimeBounds :=
  let time_bound_start := and_hms_nanos y m d h mi 0
  { start_time := time_bound_start
    end_time := time_bound_start + just_under_one_minute }

/-- The 1440 minute files created for one valid day: hours `0..=23`, minutes
`0..=59` in loop order. -/
def minute_files_for_day (y : Int) (m d : Nat) : List TimeBounds :=
  (List.range 24).flatMap fun h =>
    (List.range 60).map fun mi => minute_file_bounds y m d h mi

/-- Inclusive integer range `[a, a+1, …, b]`, empty when `b < a`; embeds the
`while year <= end_time.year()` loop over years. -/
def year_range (a b : Int) : List Int :=
  if b < a then [] else (List.range (b - a + 1).toNat).map fun i => a + (i : Int)

/-- Civil UTC datetime as chrono field accessors expose it;
`create_file_tree_for_time_range` only reads the `year` of its two
arguments. -/
structure CivilDateTime where
  year : Int
  month : Nat
  day : Nat
  hour : Nat
  minute : Nat
  second : Nat
  nano : Nat
deriving DecidableEq, Repr

/-- Time bounds of every leaf (minute file) created by
`create_file_tree_for_time_range(start_time, end_time)`, in creation order:
for each year from `start_time.year()` to `end_time.year()`, each month
`1..=12` and day `1..=31`, days rejected by `Utc.ymd_opt` are skipped and
valid days contribute their 1440 minute files. -/
def create_file_tree_leaves (start_time end_time : CivilDateTime) : List TimeBounds :=
  (year_range start_time.year end_time.year).flatMap fun y =>
    (List.range 12).flatMap fun m0 =>
      (List.range 31).flatMap fun d0 =>
        if d0 + 1 ≤ days_in_month y (m0 + 1) then
          minute_files_for_day y (m0 + 1) (d0 + 1)
        else []

/-- Helper: the bounds of any generated minute file satisfy the one-minute
window property. -/
theorem minute_file_bounds_spec (y : Int) (m d h mi : Nat) :
    (minute_file_bounds y m d h mi).end_time
        = (minute_file_bounds y m d h mi).start_time + 59999999999
      ∧ (minute_file_bounds y m d h mi).start_time % 60000000000 = 0 := by
  constructor
  · rfl
  · show and_hms_nanos y m d h mi 0 % 60000000000 = 0
    have h1 : and_hms_nanos y m d h mi 0
        = (days_from_civil y m d * 1440 + (h : Int) * 60 + (mi : Int)) * 60000000000 := by
      unfold and_hms_nanos
      ring
    rw [h1]
    exact Int.mul_emod_left _ _

/-- C9: every leaf of the tree built for any time range spans exactly one
minute — its end is its start plus 59.999999999 s — and its start lies on a
UTC minute boundary (it is a whole multiple of 60 s since the epoch). -/
theorem create_file_tree_leaves_one_minute (start_time end_time : CivilDateTime) :
    (create_file_tree_leaves start_time end_time).Forall fun b =>
      b.end_time = b.start_time + 59999999999 ∧ b.start_time % 60000000000 = 0 := by
  rw [List.forall_iff_forall_mem]
  intro b hb
  unfold create_file_tree_leaves at hb
  rw [List.mem_flatMap] at hb
  obtain ⟨y, _, hb⟩ := hb
  rw [List.mem_flatMap] at hb
  obtain ⟨m0, _, hb⟩ := hb
  rw [List.mem_flatMap] at hb
  obtain ⟨d0, _, hb⟩ := hb
  by_cases hd : d0 + 1 ≤ days_in_month y (m0 + 1)
  · rw [if_pos hd] at hb
    unfold minute_files_for_day at hb
    rw [List.mem_flatMap] at hb
    obtain ⟨h, _, hb⟩ := hb
    rw [List.mem_map] at hb
    obtain ⟨mi, _, hb⟩ := hb
    subst hb
    exact minute_file_bounds_spec y (m0 + 1) (d0 + 1) h mi
  · rw [if_neg hd] at hb
    exact absurd hb (List.not_mem_nil b)

/-! ## Log events and rendering (`src/cwl-lib/src/lib.rs`) -/

/-- A converted CloudWatch log event (`cwl_lib::FilteredLogEvent`); the two
instants are in nanoseconds since the epoch. -/
structure FilteredLogEvent where
  log_group_name : String
  event_id : String
  ingestion_time : Int
  log_stream_name : String
  message : String
  timestamp : Int
deriving DecidableEq, Repr

/-- Insertion of an event into a list, before the first element whose
timestamp is not smaller; the building block of the stable sort below. -/
def ordered_insert_by_timestamp (e : FilteredLogEvent) :
    List FilteredLogEvent → List FilteredLogEvent
  | [] => [e]
  | x :: xs =>
    if e.timestamp ≤ x.timestamp then e :: x :: xs
    else x :: ordered_insert_by_timestamp e xs

/-- Embedding of `logs.sort_by_key(|l| l.timestamp)`: Rust's slice sort is
stable, and stable sorts by one key are extensionally unique, so a stable
insertion sort denotes it exactly. -/
def sort_by_key_timestamp : List FilteredLogEvent → List FilteredLogEvent
  | [] => []
  | x :: xs => ordered_insert_by_timestamp x (sort_by_key_timestamp xs)

/-- Embedding of the rendering in `get_logs_to_display`: sort by timestamp,
format every event as `"[" stream "] " message`, join with `"\n"`. -/
def render_logs (logs : List FilteredLogEvent) : String :=
  String.intercalate "\n"
    ((sort_by_key_timestamp logs).map fun log =>
      "[" ++ log.log_stream_name ++ "] " ++ log.message)

theorem perm_ordered_insert_by_timestamp (e : FilteredLogEvent) :
    ∀ l : List FilteredLogEvent, (ordered_insert_by_timestamp e l).Perm (e :: l)
  | [] => List.Perm.refl _
  | x :: xs => by
    unfold ordered_insert_by_timestamp
    by_cases h : e.timestamp ≤ x.timestamp
    · rw [if_pos h]
    · rw [if_neg h]
      exact ((perm_ordered_insert_by_timestamp e xs).cons x).trans (List.Perm.swap e x xs)

theorem perm_sort_by_key_timestamp :
    ∀ l : List FilteredLogEvent, (sort_by_key_timestamp l).Perm l
  | [] => List.Perm.refl _
  | x :: xs => by
    unfold sort_by_key_timestamp
    exact (perm_ordered_insert_by_timestamp x (sort_by_key_timestamp xs)).trans
      ((perm_sort_by_key_timestamp xs).cons x)

theorem pairwise_ordered_insert_by_timestamp (e : FilteredLogEvent) :
    ∀ l : List FilteredLogEvent,
      l.Pairwise (fun a b => a.timestamp ≤ b.timestamp) →
      (ordered_insert_by_timestamp e l).Pairwise (fun a b => a.timestamp ≤ b.timestamp)
  | [], _ => List.pairwise_singleton _ _
  | x :: xs, hp => by
    unfold ordered_insert_by_timestamp
    rcases List.pairwise_cons.mp hp with ⟨hx, hxs⟩
    by_cases h : e.timestamp ≤ x.timestamp
    · rw [if_pos h]
      refine List.pairwise_cons.mpr ⟨?_, hp⟩
      intro b hb
      rcases List.mem_cons.mp hb with hb | hb
      · exact hb ▸ h
      · exact le_trans h (hx b hb)
    · rw [if_neg h]
      refine List.pairwise_cons.mpr ⟨?_, pairwise_ordered_insert_by_timestamp e xs hxs⟩
      intro b hb
      have hb' := (perm_ordered_insert_by_timestamp e xs).mem_iff.mp hb
      rcases List.mem_cons.mp hb' with hb' | hb'
      · exact hb' ▸ le_of_not_le h
      · exact hx b hb'

theorem pairwise_sort_by_key_timestamp :
    ∀ l : List FilteredLogEvent,
      (sort_by_key_timestamp l).Pairwise (fun a b => a.timestamp ≤ b.timestamp)
  | [] => List.Pairwise.nil
  | x :: xs => by
    unfold sort_by_key_timestamp
    exact pairwise_ordered_insert_by_timestamp x _ (pairwise_sort_by_key_timestamp xs)

theorem filter_ordered_insert_by_timestamp (e : FilteredLogEvent) (t : Int) :
    ∀ l : List FilteredLogEvent,
      (ordered_insert_by_timestamp e l).filter (fun x => x.timestamp == t)
        = (if e.timestamp == t then [e] else [])
            ++ l.filter (fun x => x.timestamp == t)
  | [] => by
    unfold ordered_insert_by_timestamp
    by_cases h : e.timestamp = t <;> simp [List.filter_cons, List.filter_nil, h]
  | x :: xs => by
    unfold ordered_insert_by_timestamp
    by_cases h : e.timestamp ≤ x.timestamp
    · rw [if_pos h]
      by_cases he : e.timestamp = t <;> simp [List.filter_cons, he]
    · rw [if_neg h]
      rw [List.filter_cons, List.filter_cons,
        filter_ordered_insert_by_timestamp e t xs]
      by_cases he : e.timestamp = t
      · have hx : ¬ x.timestamp = t := by
          intro hx
          exact h (le_of_eq (he.trans hx.symm))
        simp [he, hx]
      · simp [he]

/-- Stability of the sort, as a filter identity: for every timestamp value,
the subsequence of events carrying it is preserved verbatim. -/
theorem filter_sort_by_key_timestamp (t : Int) :
    ∀ l : List FilteredLogEvent,
      (sort_by_key_timestamp l).filter (fun x => x.timestamp == t)
        = l.filter (fun x => x.timestamp == t)
  | [] => rfl
  | x :: xs => by
    unfold sort_by_key_timestamp
    rw [filter_ordered_insert_by_timestamp, filter_sort_by_key_timestamp t xs,
      List.filter_cons]
    by_cases h : x.timestamp = t <;> simp [h]

/-- C5: the rendered blob is the `"\n"`-join (hence no trailing newline) of
one `"[" stream "] " message` line per event, over a reordering of the
fan-in input that is a permutation, is sorted by timestamp ascending — so in
the rendered blob each line's timestamp is ≥ the previous line's — and keeps
events with equal timestamps in the stable fan-in input order. -/
theorem render_logs_spec (logs : List FilteredLogEvent) :
    render_logs logs
        = String.intercalate "\n"
            ((sort_by_key_timestamp logs).map fun log =>
              "[" ++ log.log_stream_name ++ "] " ++ log.message)
      ∧ (sort_by_key_timestamp logs).Perm logs
      ∧ (sort_by_key_timestamp logs).Pairwise (fun a b => a.timestamp ≤ b.timestamp)
      ∧ ∀ t : Int,
          (sort_by_key_timestamp logs).filter (fun x => x.timestamp == t)
            = logs.filter (fun x => x.timestamp == t) :=
  ⟨rfl, perm_sort_by_key_timestamp logs, pairwise_sort_by_key_timestamp logs,
    fun t => filter_sort_by_key_timestamp t logs⟩

/-! ## Fetch cache and `get_logs_to_display` (`src/cwl-lib/src/lib.rs`)

The `lru::LruCache` is modelled as an association list with the
most-recently-used entry at the head.  The remote service is modelled as a
pure value: `groups` is the flattening of all `describe_log_groups` pages
and `events_for g s e` the flattening of all `filter_log_events` pages for
group `g` over the window `[s, e]`; one remote interaction is counted per
`describe_log_groups` enumeration and per per-group fetch (each of which is
one or more paginated calls, so a count of zero means zero remote calls). -/

/-- Time bounds of a cache key (`cwl_lib::TimeBounds`). -/
structure CwlTimeBounds where
  first_event_time : Int
  last_event_time : Int
deriving DecidableEq, Repr

/-- Cache key (`cwl_lib::CacheKey`): the matcher — compared by its source
pattern string — together with the window.  The `regexes` crate's
`LogGroupNameMatcher` is not under `src/`; modelled from the spec: it is
constructed from a single pattern string and two matchers are equal exactly
when their pattern strings are. -/
structure CacheKey where
  matcher_pattern : String
  time_bounds : CwlTimeBounds
deriving DecidableEq, Repr

/-- First value stored under `key`, scanning from the MRU end. -/
def cache_find : List (CacheKey × String) → CacheKey → Option String
  | [], _ => none
  | (k, v) :: rest, key => if k = key then some v else cache_find rest key

/-- Removal of the first entry stored under `key`. -/
def cache_erase : List (CacheKey × String) → CacheKey → List (CacheKey × String)
  | [], _ => []
  | (k, v) :: rest, key => if k = key then rest else (k, v) :: cache_erase rest key

/-- `LruCache::get`: on a hit the entry moves to the MRU position; the cache
is otherwise untouched. -/
def lru_get (cache : List (CacheKey × String)) (key : CacheKey) :
    Option String × List (CacheKey × String) :=
  match cache_find cache key with
  | none => (none, cache)
  | some v => (some v, (key, v) :: cache_erase cache key)

/-- `LruCache::put` with capacity `cap`: an existing entry is replaced and
moved to the MRU position; otherwise, if the cache is full the LRU entry
(the last) is evicted; the new entry goes to the MRU position. -/
def lru_put (cap : Nat) (cache : List (CacheKey × String)) (key : CacheKey)
    (v : String) : List (CacheKey × String) :=
  if (cache_find cache key).isSome then (key, v) :: cache_erase cache key
  else if cap ≤ cache.length then (key, v) :: cache.dropLast
  else (key, v) :: cache

/-- `is_cacheable`: the key's window must have ended more than 5 minutes
(300000000000 ns) before `now` (`Utc::now()` passed explicitly). -/
def is_cacheable (now : Int) (cache_key : CacheKey) : Bool :=
  300000000000 < now - cache_key.time_bounds.last_event_time

/-- The remote service as seen through `CloudWatchLogsImpl`:
`get_log_group_names` yields `groups`, and `get_log_events g (some s)
(some e) none` yields `events_for g s e`. -/
structure CwlService where
  groups : List String
  events_for : String → Int → Int → List FilteredLogEvent

/-- Error kinds of `cwl_lib::CloudWatchLogsError` (SDK payloads elided). -/
inductive CwlError
  | describeLogGroupsError
  | filterLogEventsError
  | failedToConvertCloudWatchFilteredLogEvent (field : String)
  | invalidGetLogsToDisplayMessage (reason : String)
  | noCloudWatchLogGroupsMatchFilter (pattern : String)
  | unknown
deriving DecidableEq, Repr

/-- Outcome of one `get_logs_to_display` call: the reply, the cache left
behind, and the number of remote interactions issued. -/
structure FetchOut where
  result : Except CwlError String
  cache : List (CacheKey × String)
  remote_calls : Nat
deriving Repr

/-- Embedding of `cwl_lib::get_logs_to_display` for a matcher with source
pattern `pattern` and match semantics `is_match`: look the key up in the
cache and return the hit; on a miss enumerate the group names, keep those
matching, fan out one fetch per matched group, flatten, render, and store
the bytes only when `is_cacheable` holds. -/
def get_logs_to_display (is_match : String → Bool) (pattern : String)
    (start_time end_time now : Int) (cwl : CwlService)
    (cache : List (CacheKey × String)) : FetchOut :=
  let cache_key : CacheKey := ⟨pattern, ⟨start_time, end_time⟩⟩
  match lru_get cache cache_key with
  | (some v, cache') => ⟨Except.ok v, cache', 0⟩
  | (none, _) =>
    let log_group_names := cwl.groups.filter is_match
    let logs := (log_group_names.map fun g =>
      cwl.events_for g start_time end_time).flatten
    let data := render_logs logs
    let cache' :=
      if is_cacheable now cache_key then lru_put 60 cache cache_key data
      else cache
    ⟨Except.ok data, cache', 1 + log_group_names.length⟩

/-- Embedding of the `GetLogsToDisplay` arm of
`CloudWatchLogsActor::handle_message`: the pattern handed to
`LogGroupNameMatcher::new`, or the `InvalidGetLogsToDisplayMessage` error
reply. -/
def get_logs_to_display_pattern (log_group_name log_group_filter : Option String) :
    Except CwlError String :=
  match log_group_name with
  | some name => Except.ok ("^" ++ name ++ "$")
  | none =>
    match log_group_filter with
    | some filter => Except.ok filter
    | none =>
      Except.error (CwlError.invalidGetLogsToDisplayMessage
        "Must specify either log_group_name or log_group_filter")

theorem get_logs_to_display_hit_eq (is_match : String → Bool) (pattern : String)
    (s e now : Int) (cwl : CwlService) (cache : List (CacheKey × String))
    (v : String) (hf : cache_find cache ⟨pattern, ⟨s, e⟩⟩ = some v) :
    get_logs_to_display is_match pattern s e now cwl cache
      = ⟨Except.ok v,
          (⟨pattern, ⟨s, e⟩⟩, v) :: cache_erase cache ⟨pattern, ⟨s, e⟩⟩, 0⟩ := by
  simp only [get_logs_to_display, lru_get, hf]

theorem get_logs_to_display_miss_eq (is_match : String → Bool) (pattern : String)
    (s e now : Int) (cwl : CwlService) (cache : List (CacheKey × String))
    (hf : cache_find cache ⟨pattern, ⟨s, e⟩⟩ = none) :
    get_logs_to_display is_match pattern s e now cwl cache
      = ⟨Except.ok (render_logs ((cwl.groups.filter is_match).map fun g =>
            cwl.events_for g s e).flatten),
          if is_cacheable now ⟨pattern, ⟨s, e⟩⟩ then
            lru_put 60 cache ⟨pattern, ⟨s, e⟩⟩
              (render_logs ((cwl.groups.filter is_match).map fun g =>
                cwl.events_for g s e).flatten)
          else cache,
          1 + (cwl.groups.filter is_match).length⟩ := by
  simp only [get_logs_to_display, lru_get, hf]

theorem cache_find_cons_self (k : CacheKey) (v : String)
    (rest : List (CacheKey × String)) : cache_find ((k, v) :: rest) k = some v := by
  simp [cache_find]

theorem cache_find_lru_put_self (cap : Nat) (cache : List (CacheKey × String))
    (k : CacheKey) (v : String) : cache_find (lru_put cap cache k v) k = some v := by
  unfold lru_put
  by_cases h1 : (cache_find cache k).isSome
  · rw [if_pos h1]; exact cache_find_cons_self k v _
  · rw [if_neg h1]
    by_cases h2 : cap ≤ cache.length
    · rw [if_pos h2]; exact cache_find_cons_self k v _
    · rw [if_neg h2]; exact cache_find_cons_self k v _

theorem cache_find_erase_perm (k : CacheKey) (v : String) :
    ∀ cache : List (CacheKey × String),
      cache_find cache k = some v → cache.Perm ((k, v) :: cache_erase cache k)
  | [], h => by simp [cache_find] at h
  | (k', v') :: rest, h => by
    by_cases hk : k' = k
    · rw [cache_find, if_pos hk] at h
      obtain rfl := Option.some.injEq .. ▸ h
      rw [cache_erase, if_pos hk, hk]
    · rw [cache_find, if_neg hk] at h
      rw [cache_erase, if_neg hk]
      exact ((cache_find_erase_perm k v rest h).cons (k', v')).trans
        (List.Perm.swap (k, v) (k', v') (cache_erase rest k))

/-- C2 (amended): with zero matching log-group names and a cache miss, the
fetch succeeds with the empty rendering; the `NoLogGroupsMatchFilter` error
kind is declared in the source but never produced. -/
theorem get_logs_to_display_zero_match_ok_empty (is_match : String → Bool)
    (pattern : String) (s e now : Int) (cwl : CwlService)
    (cache : List (CacheKey × String))
    (hmiss : cache_find cache ⟨pattern, ⟨s, e⟩⟩ = none)
    (hzero : cwl.groups.filter is_match = []) :
    (get_logs_to_display is_match pattern s e now cwl cache).result
      = Except.ok "" := by
  rw [get_logs_to_display_miss_eq is_match pattern s e now cwl cache hmiss]
  show Except.ok (render_logs ((cwl.groups.filter is_match).map fun g =>
    cwl.events_for g s e).flatten) = Except.ok ""
  rw [hzero]
  rfl

/-- Witness for `get_logs_to_display_zero_match_ok_empty` at a concrete
service holding one group that the matcher rejects. -/
theorem get_logs_to_display_zero_match_ok_empty_witness :
    cache_find [] ⟨"^g$", ⟨0, 0⟩⟩ = none
    ∧ (CwlService.mk ["other"] fun _ _ _ => []).groups.filter (fun _ => false) = []
    ∧ (get_logs_to_display (fun _ => false) "^g$" 0 0 1000000000000
        ⟨["other"], fun _ _ _ => []⟩ []).result = Except.ok "" :=
  ⟨rfl, rfl,
    get_logs_to_display_zero_match_ok_empty (fun _ => false) "^g$" 0 0 1000000000000
      ⟨["other"], fun _ _ _ => []⟩ [] rfl rfl⟩

/-- Counterexample to C2 as stated: a matcher selecting zero groups makes
the fetch return the successful empty rendering, not the
`NoLogGroupsMatchFilter` error. -/
theorem get_logs_to_display_zero_match_counterexample :
    (get_logs_to_display (fun _ => false) "^g$" 0 0 1000000000000
        ⟨["other"], fun _ _ _ => []⟩ []).result = Except.ok ""
    ∧ (get_logs_to_display (fun _ => false) "^g$" 0 0 1000000000000
        ⟨["other"], fun _ _ _ => []⟩ []).result
      ≠ Except.error (CwlError.noCloudWatchLogGroupsMatchFilter "^g$") := by
  constructor
  · rfl
  · intro h
    rw [show (get_logs_to_display (fun _ => false) "^g$" 0 0 1000000000000
        ⟨["other"], fun _ _ _ => []⟩ []).result = Except.ok "" from rfl] at h
    exact Except.noConfusion h

/-- C4 (amended): `log_group_name` takes precedence — when it is set the
matcher pattern is `^name$` even if `log_group_filter` is also set; with
only the filter set the pattern is the filter text; only when both are
absent is the reply the `InvalidRequest` error. -/
theorem get_logs_to_display_pattern_spec :
    (∀ (name : String) (filt : Option String),
        get_logs_to_display_pattern (some name) filt
          = Except.ok ("^" ++ name ++ "$"))
    ∧ (∀ filter : String,
        get_logs_to_display_pattern none (some filter) = Except.ok filter)
    ∧ get_logs_to_display_pattern none none
        = Except.error (CwlError.invalidGetLogsToDisplayMessage
            "Must specify either log_group_name or log_group_filter") :=
  ⟨fun _ _ => rfl, fun _ => rfl, rfl⟩

/-- Counterexample to C4 as stated: with both `group_name` and
`group_filter` present the actor does not reply `InvalidRequest`; the name
wins and the pattern is `^g$`. -/
theorem get_logs_to_display_pattern_both_set_counterexample :
    get_logs_to_display_pattern (some "g") (some "h") = Except.ok "^g$"
    ∧ get_logs_to_display_pattern (some "g") (some "h")
      ≠ Except.error (CwlError.invalidGetLogsToDisplayMessage
          "Must specify either log_group_name or log_group_filter") := by
  constructor
  · rfl
  · intro h
    rw [show get_logs_to_display_pattern (some "g") (some "h")
        = Except.ok "^g$" from rfl] at h
    exact Except.noConfusion h

/-- C7: for a window already cacheable at the first fetch, two successive
fetches against the same service state return identical blobs and the
second issues zero remote calls. -/
theorem get_logs_to_display_cached_round_trip (is_match : String → Bool)
    (pattern : String) (s e now1 now2 : Int) (cwl : CwlService)
    (cache : List (CacheKey × String))
    (h1 : 300000000000 < now1 - e) (h2 : 300000000000 < now2 - e) :
    (get_logs_to_display is_match pattern s e now2 cwl
        (get_logs_to_display is_match pattern s e now1 cwl cache).cache).result
      = (get_logs_to_display is_match pattern s e now1 cwl cache).result
    ∧ (get_logs_to_display is_match pattern s e now2 cwl
        (get_logs_to_display is_match pattern s e now1 cwl cache).cache).remote_calls
      = 0 := by
  have hc : is_cacheable now1 ⟨pattern, ⟨s, e⟩⟩ = true := by
    simp only [is_cacheable, decide_eq_true_eq]
    exact h1
  cases hf : cache_find cache ⟨pattern, ⟨s, e⟩⟩ with
  | none =>
    have e1 := get_logs_to_display_miss_eq is_match pattern s e now1 cwl cache hf
    rw [hc, if_pos rfl] at e1
    rw [e1]
    rw [get_logs_to_display_hit_eq is_match pattern s e now2 cwl _ _
      (cache_find_lru_put_self 60 cache ⟨pattern, ⟨s, e⟩⟩ _)]
    exact ⟨rfl, rfl⟩
  | some v =>
    rw [get_logs_to_display_hit_eq is_match pattern s e now1 cwl cache v hf]
    rw [get_logs_to_display_hit_eq is_match pattern s e now2 cwl _ v
      (cache_find_cons_self _ v _)]
    exact ⟨rfl, rfl⟩

/-- Witness for `get_logs_to_display_cached_round_trip` at a concrete
service and an empty cache. -/
theorem get_logs_to_display_cached_round_trip_witness :
    (300000000000 : Int) < 300000000001 - 0
    ∧ (300000000000 : Int) < 300000000002 - 0
    ∧ ((get_logs_to_display (fun _ => true) "p" 0 0 300000000002
          ⟨["g"], fun _ _ _ => []⟩
          (get_logs_to_display (fun _ => true) "p" 0 0 300000000001
            ⟨["g"], fun _ _ _ => []⟩ []).cache).result
        = (get_logs_to_display (fun _ => true) "p" 0 0 300000000001
            ⟨["g"], fun _ _ _ => []⟩ []).result
      ∧ (get_logs_to_display (fun _ => true) "p" 0 0 300000000002
          ⟨["g"], fun _ _ _ => []⟩
          (get_logs_to_display (fun _ => true) "p" 0 0 300000000001
            ⟨["g"], fun _ _ _ => []⟩ []).cache).remote_calls = 0) :=
  ⟨by norm_num, by norm_num,
    get_logs_to_display_cached_round_trip (fun _ => true) "p" 0 0
      300000000001 300000000002 ⟨["g"], fun _ _ _ => []⟩ []
      (by norm_num) (by norm_num)⟩

/-- C8: when the window's end is at most 5 minutes in the past, the fetch
never inserts or evicts — the key/value pairs of the cache are unchanged (a
cache hit merely moves the hit entry to the MRU position), and on a miss
the cache is left literally identical. -/
theorem get_logs_to_display_fresh_cache_unchanged (is_match : String → Bool)
    (pattern : String) (s e now : Int) (cwl : CwlService)
    (cache : List (CacheKey × String)) (h : now - e ≤ 300000000000) :
    ((get_logs_to_display is_match pattern s e now cwl cache).cache).Perm cache
    ∧ (cache_find cache ⟨pattern, ⟨s, e⟩⟩ = none →
        (get_logs_to_display is_match pattern s e now cwl cache).cache = cache) := by
  have hc : is_cacheable now ⟨pattern, ⟨s, e⟩⟩ = false := by
    simp only [is_cacheable, decide_eq_false_iff_not, not_lt]
    omega
  cases hf : cache_find cache ⟨pattern, ⟨s, e⟩⟩ with
  | none =>
    have e1 := get_logs_to_display_miss_eq is_match pattern s e now cwl cache hf
    rw [hc] at e1
    rw [if_neg (by simp)] at e1
    rw [e1]
    exact ⟨List.Perm.refl cache, fun _ => rfl⟩
  | some v =>
    rw [get_logs_to_display_hit_eq is_match pattern s e now cwl cache v hf]
    refine ⟨(cache_find_erase_perm _ v cache hf).symm, ?_⟩
    intro hnone
    simp [hf] at hnone

/-- Witness for `get_logs_to_display_fresh_cache_unchanged` with a window
ending at the fetch instant. -/
theorem get_logs_to_display_fresh_cache_unchanged_witness :
    ((0 : Int) - 0 ≤ 300000000000)
    ∧ ((get_logs_to_display (fun _ => true) "p" 0 0 0
        ⟨["g"], fun _ _ _ => []⟩ []).cache).Perm [] :=
  ⟨by norm_num,
    (get_logs_to_display_fresh_cache_unchanged (fun _ => true) "p" 0 0 0
      ⟨["g"], fun _ _ _ => []⟩ [] (by norm_num)).1⟩

/-! ## FS adapter (`src/cli/src/main.rs`, `impl Filesystem for HelloFS`)

The callbacks are embedded as functions of the kernel-supplied arguments
and of the outcome of the collaborator they consult: the node (if any) the
inode resolves to through the file tree, and for `read` the actor's fetch
reply.  Flag and errno constants are the Linux `libc` values. -/

/-- Node kind stored in the tree (`fuse::FileType`). -/
inductive NodeType
  | Directory
  | File (time_bounds : TimeBounds)
deriving DecidableEq, Repr

/-- Reply issued by `HelloFS::open`. -/
inductive OpenReply
  | opened (fh : Nat) (open_flags : Nat)
  | error (errno : Int)
deriving DecidableEq, Repr

/-- Reply issued by `HelloFS::read`; `panicked` marks an `unwrap` of an
`Err`/short read, which aborts the callback without replying. -/
inductive ReadReply
  | data (bytes : List Nat)
  | error (errno : Int)
  | panicked
deriving DecidableEq, Repr

/-- Linux `O_ACCMODE` mask. -/
def o_accmode : Nat := 3
/-- Linux `O_RDONLY`. -/
def o_rdonly : Nat := 0
/-- Linux `O_WRONLY`. -/
def o_wronly : Nat := 1
/-- Linux `O_RDWR`. -/
def o_rdwr : Nat := 2
/-- Linux `O_TRUNC` (0o1000). -/
def o_trunc : Nat := 512
/-- `FMODE_EXEC` from `main.rs` (0x20). -/
def fmode_exec : Nat := 32
/-- The fuse `FOPEN_DIRECT_IO` open flag (bit 0); always set because
`HelloFS.direct_io` is `true`. -/
def fopen_direct : Nat := 1
/-- Linux `ENOENT`. -/
def enoent : Int := 2
/-- Linux `EACCES`. -/
def eacces : Int := 13
/-- Linux `EINVAL`. -/
def einval : Int := 22

/-- Continuation of `HelloFS::open` after the access-mode match: resolve
the inode; a regular file opens with handle 10 and `FOPEN_DIRECT_IO`, a
directory or an unresolvable inode falls through to `EACCES`. -/
def hellofs_open_resolve : Option NodeType → OpenReply
  | some (NodeType.File _) => OpenReply.opened 10 fopen_direct
  | some NodeType.Directory => OpenReply.error eacces
  | none => OpenReply.error eacces

/-- Embedding of `HelloFS::open`: match on `flags & O_ACCMODE`; in the
`O_RDONLY` arm `O_TRUNC` replies `EACCES` (the `FMODE_EXEC` test only picks
an access mask that the function never uses); the `O_WRONLY` and `O_RDWR`
arms compute an unused `(access_mask, read, write)` triple and fall
through; any other access mode replies `EINVAL`. -/
def hellofs_open (flags : Nat) (resolved : Option NodeType) : OpenReply :=
  if flags &&& o_accmode = o_rdonly then
    if flags &&& o_trunc ≠ 0 then OpenReply.error eacces
    else hellofs_open_resolve resolved
  else if flags &&& o_accmode = o_wronly then hellofs_open_resolve resolved
  else if flags &&& o_accmode = o_rdwr then hellofs_open_resolve resolved
  else OpenReply.error einval

/-- `Cursor::read_exact` into a buffer of `n` bytes: `some` buffer when at
least `n` bytes remain, otherwise a failure (which `main.rs` unwraps). -/
def read_exact : List Nat → Nat → Option (List Nat)
  | _, 0 => some []
  | [], _ + 1 => none
  | b :: rest, n + 1 => (read_exact rest n).map fun buf => b :: buf

/-- Embedding of `HelloFS::read`: unresolvable inodes and directories reply
`ENOENT`; for a minute file the fetch reply is unwrapped — an `Err` panics
the callback — and the blob is sliced as
`read_size = min(size, (file_size.saturating_sub(offset)) as u32)` (the
`as u32` cast is the modulus below), empty reply when zero, else
`read_exact` from the cursor at `offset`. -/
def hellofs_read (resolved : Option NodeType)
    (fetch : Except CwlError (List Nat)) (offset size : Nat) : ReadReply :=
  match resolved with
  | none => ReadReply.error enoent
  | some NodeType.Directory => ReadReply.error enoent
  | some (NodeType.File _) =>
    match fetch with
    | Except.error _ => ReadReply.panicked
    | Except.ok blob =>
      let file_size := blob.length
      let read_size := min size ((file_size - offset) % 4294967296)
      if read_size = 0 then ReadReply.data []
      else
        match read_exact (blob.drop offset) read_size with
        | some buffer => ReadReply.data buffer
        | none => ReadReply.panicked

theorem read_exact_eq_take (n : Nat) :
    ∀ l : List Nat, n ≤ l.length → read_exact l n = some (l.take n) := by
  induction n with
  | zero =>
    intro l _
    rw [List.take_zero]
    cases l <;> rfl
  | succ m ih =>
    intro l hl
    cases l with
    | nil => simp at hl
    | cons b rest =>
      show (read_exact rest m).map (fun buf => b :: buf) = some (b :: rest.take m)
      rw [ih rest (Nat.le_of_succ_le_succ hl)]
      rfl

/-- C1 (amended): `open` never rejects a write access mode by itself — with
`O_WRONLY` or `O_RDWR` the reply is the lookup continuation, succeeding on
a regular file with `FOPEN_DIRECT_IO`; `O_RDONLY|O_TRUNC` replies `EACCES`;
an access mode that is none of the three replies `EINVAL`. -/
theorem hellofs_open_spec (flags : Nat) (resolved : Option NodeType) :
    (flags &&& o_accmode = o_rdonly → flags &&& o_trunc ≠ 0 →
      hellofs_open flags resolved = OpenReply.error eacces)
    ∧ (flags &&& o_accmode = o_wronly ∨ flags &&& o_accmode = o_rdwr →
        (∀ tb : TimeBounds,
          hellofs_open flags (some (NodeType.File tb))
            = OpenReply.opened 10 fopen_direct)
        ∧ hellofs_open flags (some NodeType.Directory) = OpenReply.error eacces
        ∧ hellofs_open flags none = OpenReply.error eacces)
    ∧ (flags &&& o_accmode ≠ o_rdonly → flags &&& o_accmode ≠ o_wronly →
        flags &&& o_accmode ≠ o_rdwr →
        hellofs_open flags resolved = OpenReply.error einval) := by
  refine ⟨?_, ?_, ?_⟩
  · intro h0 ht
    rw [hellofs_open, if_pos h0, if_pos ht]
  · intro hw
    have h0 : ¬ flags &&& o_accmode = o_rdonly := by
      rcases hw with hw | hw <;> rw [hw] <;> decide
    refine ⟨fun tb => ?_, ?_, ?_⟩ <;>
      · rw [hellofs_open, if_neg h0]
        rcases hw with hw | hw
        · rw [if_pos hw]; rfl
        · have h1 : ¬ flags &&& o_accmode = o_wronly := by rw [hw]; decide
          rw [if_neg h1, if_pos hw]; rfl
  · intro h0 h1 h2
    rw [hellofs_open, if_neg h0, if_neg h1, if_neg h2]

/-- Witness for `hellofs_open_spec`: `O_WRONLY` (flags = 1) on a minute
file opens successfully, and `O_RDONLY|O_TRUNC` (flags = 512) on an
unknown inode replies `EACCES`. -/
theorem hellofs_open_spec_witness :
    hellofs_open 1 (some (NodeType.File ⟨0, 59999999999⟩))
      = OpenReply.opened 10 fopen_direct
    ∧ hellofs_open 512 none = OpenReply.error eacces :=
  ⟨((hellofs_open_spec 1 (some (NodeType.File ⟨0, 59999999999⟩))).2.1
      (Or.inl (by decide))).1 ⟨0, 59999999999⟩,
    (hellofs_open_spec 512 none).1 (by decide) (by decide)⟩

/-- Counterexample to C1 as stated: an `open` with access mode `O_WRONLY`
on an inode resolving to a regular file succeeds with `FOPEN_DIRECT_IO`
instead of replying `EACCES`. -/
theorem hellofs_open_wronly_counterexample :
    hellofs_open 1 (some (NodeType.File ⟨0, 59999999999⟩))
      = OpenReply.opened 10 1
    ∧ hellofs_open 1 (some (NodeType.File ⟨0, 59999999999⟩))
      ≠ OpenReply.error 13 := by
  constructor
  · rfl
  · intro h
    rw [show hellofs_open 1 (some (NodeType.File ⟨0, 59999999999⟩))
        = OpenReply.opened 10 1 from rfl] at h
    exact OpenReply.noConfusion h

/-- C10: with a plain read access mode, an inode that resolves to nothing
gets `EACCES` — not `ENOENT` — exactly the reply a directory gets. -/
theorem hellofs_open_unknown_inode_eacces (flags : Nat)
    (hacc : flags &&& o_accmode = o_rdonly) :
    hellofs_open flags none = OpenReply.error eacces
    ∧ hellofs_open flags (some NodeType.Directory) = OpenReply.error eacces
    ∧ hellofs_open flags none ≠ OpenReply.error enoent := by
  have hres : ∀ r : Option NodeType, hellofs_open_resolve r = OpenReply.error eacces
      → hellofs_open flags r = OpenReply.error eacces := by
    intro r hr
    rw [hellofs_open, if_pos hacc]
    by_cases ht : flags &&& o_trunc ≠ 0
    · rw [if_pos ht]
    · rw [if_neg ht]; exact hr
  refine ⟨hres none rfl, hres (some NodeType.Directory) rfl, ?_⟩
  rw [hres none rfl]
  intro h
  have : eacces = enoent := OpenReply.error.inj h
  exact absurd this (by decide)

/-- Witness for `hellofs_open_unknown_inode_eacces` at `flags = O_RDONLY`. -/
theorem hellofs_open_unknown_inode_eacces_witness :
    hellofs_open 0 none = OpenReply.error eacces
    ∧ hellofs_open 0 (some NodeType.Directory) = OpenReply.error eacces
    ∧ hellofs_open 0 none ≠ OpenReply.error enoent :=
  hellofs_open_unknown_inode_eacces 0 (by decide)

/-- C3 at its failing input: when the actor's fetch for a minute file
resolves to an error (here a failed `describe_log_groups`), the `read`
callback panics on `rx.recv().unwrap().unwrap()` instead of replying
`ENOENT` — no reply reaches the kernel. -/
theorem hellofs_read_fetch_error_panics :
    hellofs_read (some (NodeType.File ⟨0, 59999999999⟩))
      (Except.error CwlError.describeLogGroupsError) 0 4096
      = ReadReply.panicked
    ∧ hellofs_read (some (NodeType.File ⟨0, 59999999999⟩))
      (Except.error CwlError.describeLogGroupsError) 0 4096
      ≠ ReadReply.error enoent := by
  constructor
  · rfl
  · intro h
    rw [show hellofs_read (some (NodeType.File ⟨0, 59999999999⟩))
        (Except.error CwlError.describeLogGroupsError) 0 4096
        = ReadReply.panicked from rfl] at h
    exact ReadReply.noConfusion h

/-- C6 (amended): the read of a minute file with blob `B` replies exactly
`B[offset .. offset + read_size]` where
`read_size = min(size, (|B| − offset saturated at 0) mod 2^32)` — the
`mod 2^32` being the source's `as u32` cast; in particular the reply is
empty whenever `offset ≥ |B|`. -/
theorem hellofs_read_slicing (tb : TimeBounds) (blob : List Nat)
    (offset size : Nat) :
    hellofs_read (some (NodeType.File tb)) (Except.ok blob) offset size
      = ReadReply.data
          ((blob.drop offset).take (min size ((blob.length - offset) % 4294967296))) := by
  show (if min size ((blob.length - offset) % 4294967296) = 0 then ReadReply.data []
      else match read_exact (blob.drop offset)
          (min size ((blob.length - offset) % 4294967296)) with
        | some buffer => ReadReply.data buffer
        | none => ReadReply.panicked)
    = ReadReply.data
        ((blob.drop offset).take (min size ((blob.length - offset) % 4294967296)))
  by_cases h0 : min size ((blob.length - offset) % 4294967296) = 0
  · rw [if_pos h0, h0, List.take_zero]
  · rw [if_neg h0]
    have hle : min size ((blob.length - offset) % 4294967296)
        ≤ (blob.drop offset).length := by
      rw [List.length_drop]
      calc min size ((blob.length - offset) % 4294967296)
          ≤ (blob.length - offset) % 4294967296 := Nat.min_le_right _ _
        _ ≤ blob.length - offset := Nat.mod_le _ _
    rw [read_exact_eq_take _ _ hle]

/-- Counterexample to C6 as stated: for a 2^32-byte blob, `read(0, 1)`
computes read size `min(1, 2^32 mod 2^32) = 0` and replies the empty
buffer, while the claimed `min(size, max(0, |B| − offset)) = 1` would
demand the first byte of the blob. -/
theorem hellofs_read_u32_truncation_counterexample :
    hellofs_read (some (NodeType.File ⟨0, 59999999999⟩))
      (Except.ok (List.replicate 4294967296 0)) 0 1
      = ReadReply.data []
    ∧ min 1 ((List.replicate 4294967296 (0 : Nat)).length - 0) = 1
    ∧ (List.replicate 4294967296 (0 : Nat)).take 1 = [0] := by
  refine ⟨?_, ?_, ?_⟩
  · rw [hellofs_read_slicing]
    rw [List.length_replicate]
    norm_num
  · rw [List.length_replicate, Nat.sub_zero]
    exact Nat.min_eq_left (by norm_num)
  · rw [List.take_replicate,
      show (min 1 4294967296 : Nat) = 1 from Nat.min_eq_left (by norm_num)]
    rfl
